import Mathlib

/-!
# Verification of the Euclid Image Cutout Service core

Shallow embedding of the core routines of the Euclid cutout service
(`euclid_cutout_remix.py`, the legacy `Euclid_flash_app.py` task pipeline,
and the `euclid_service.core` task registry), together with theorems
settling the frozen specification claims.

Conventions of the embedding:
* Python strings are modelled as Lean `String` / `List Char`; the helpers
  below reproduce the semantics of `str.split` with a non-empty separator.
* Sky coordinates are modelled as exact rationals `ℚ` (the Python code uses
  binary floats; every float is a rational, and none of the claims hinges on
  float rounding of coordinates).
* True angular separation (`astropy`'s `SkyCoord.separation`) is modelled by
  the spherical law of cosines over `ℝ`, which is the same mathematical
  function computed by astropy's Vincenty formula on the unit sphere.
* Filesystem contents are passed in as explicit data (directory listings,
  per-file extraction outcomes); fallible operations return `Option`.
-/

namespace EuclidCutout

/-! ## String splitting helpers (Python `str.split` semantics)

`splitFirst sep s` finds the first occurrence of the (non-empty) separator
`sep` in `s` and returns the parts before and after it, `none` when `sep`
does not occur.  `splitChar c s` is Python's `s.split(c)` for a one-character
separator.  `firstBefore`/`lastAfter` are `s.split(sep)[0]` and
`s.split(sep)[-1]`. -/

def splitFirst (sep : List Char) : List Char → Option (List Char × List Char)
  | [] => none
  | c :: cs =>
    if sep.isPrefixOf (c :: cs) then some ([], (c :: cs).drop sep.length)
    else (splitFirst sep cs).map fun p => (c :: p.1, p.2)

theorem splitFirst_decomp (sep : List Char) :
    ∀ (s b a : List Char), splitFirst sep s = some (b, a) → s = b ++ sep ++ a := by
  intro s
  induction s with
  | nil => intro b a h; simp [splitFirst] at h
  | cons c cs ih =>
    intro b a h
    simp only [splitFirst] at h
    by_cases hp : sep.isPrefixOf (c :: cs)
    · rw [if_pos hp] at h
      obtain ⟨t, ht⟩ := List.isPrefixOf_iff_prefix.mp hp
      cases h
      rw [← ht]
      simp
    · rw [if_neg hp] at h
      cases hfs : splitFirst sep cs with
      | none => rw [hfs] at h; simp at h
      | some p =>
        rw [hfs] at h
        simp only [Option.map_some'] at h
        cases h
        have := ih p.1 p.2 (by rw [hfs])
        simp [this]

/-- Python `s.split(sep)[0]` for the non-empty separator `c :: rest`. -/
def firstBefore (c : Char) (rest : List Char) (s : List Char) : List Char :=
  match splitFirst (c :: rest) s with
  | none => s
  | some (b, _) => b

/-- Fuel-driven worker for `lastAfter`; each successful `splitFirst` on a
non-empty separator strictly shrinks the string, so `s.length` fuel always
suffices. -/
def lastAfterAux (sep : List Char) : Nat → List Char → List Char
  | 0, s => s
  | fuel + 1, s =>
    match splitFirst sep s with
    | none => s
    | some (_, a) => lastAfterAux sep fuel a

/-- Python `s.split(sep)[-1]` for the non-empty separator `c :: rest`. -/
def lastAfter (c : Char) (rest : List Char) (s : List Char) : List Char :=
  lastAfterAux (c :: rest) s.length s

/-- Python `s.split(c)` for a single-character separator. -/
def splitChar (c : Char) : List Char → List (List Char)
  | [] => [[]]
  | x :: xs =>
    if x = c then [] :: splitChar c xs
    else
      match splitChar c xs with
      | [] => [[x]]
      | p :: ps => (x :: p) :: ps

theorem splitChar_ne_nil (c : Char) (s : List Char) : splitChar c s ≠ [] := by
  induction s with
  | nil => simp [splitChar]
  | cons x xs ih =>
    simp only [splitChar]
    by_cases hx : x = c
    · simp [hx]
    · rw [if_neg hx]
      cases h : splitChar c xs with
      | nil => simp
      | cons p ps => simp

theorem splitChar_of_not_mem (c : Char) (s : List Char) (h : c ∉ s) :
    splitChar c s = [s] := by
  induction s with
  | nil => simp [splitChar]
  | cons x xs ih =>
    simp only [List.mem_cons, not_or] at h
    simp only [splitChar]
    rw [if_neg (fun hq => h.1 hq.symm)]
    rw [ih h.2]

theorem splitChar_length_ge_two (c : Char) (s : List Char) (h : c ∈ s) :
    2 ≤ (splitChar c s).length := by
  induction s with
  | nil => simp at h
  | cons x xs ih =>
    simp only [splitChar]
    by_cases hx : x = c
    · rw [if_pos hx]
      have := splitChar_ne_nil c xs
      simp only [List.length_cons]
      cases hq : splitChar c xs with
      | nil => exact absurd hq this
      | cons p ps => simp
    · rw [if_neg hx]
      have hmem : c ∈ xs := by
        rcases List.mem_cons.mp h with h1 | h2
        · exact absurd h1.symm hx
        · exact h2
      have h2 := ih hmem
      cases hq : splitChar c xs with
      | nil => exact absurd hq (splitChar_ne_nil c xs)
      | cons p ps =>
        rw [hq] at h2
        simp only [List.length_cons] at h2 ⊢
        omega

/-! ## FileNameResolver: `_get_file_pattern` and `_parse_filename`
(`euclid_cutout_remix.py` lines 142-197) -/

/-- `_get_file_pattern`: file-type to filename-pattern map with identity
fallback (`pattern_map.get(file_type, file_type)`). -/
def getFilePattern (fileType : String) : String :=
  if fileType = "BGSUB" then "BGSUB-MOSAIC"
  else if fileType = "BGMOD" then "BGMOD"
  else if fileType = "FLAG" then "MOSAIC"
  else if fileType = "RMS" then "MOSAIC"
  else if fileType = "CATALOG-PSF" then "CATALOG-PSF"
  else fileType

/-- The token remaining after `_parse_filename` strips the `_TILE` suffix and
the product-type prefix pattern:
`filename.split("_TILE")[0]` followed by
`.split("EUC_MER_MOSAIC-")[-1].split(f"-{file_type}")[0]` for FLAG/RMS and
`.split(f"EUC_MER_{pattern}-")[-1]` otherwise. -/
def strippedToken (filename fileType : String) : List Char :=
  let notile := firstBefore '_' "TILE".toList filename.toList
  if fileType = "FLAG" ∨ fileType = "RMS" then
    firstBefore '-' fileType.toList (lastAfter 'E' "UC_MER_MOSAIC-".toList notile)
  else
    lastAfter 'E' ("UC_MER_" ++ getFilePattern fileType ++ "-").toList notile

/-- `_parse_filename`: split the stripped token on `'-'`; one part means a
single-channel instrument (band = instrument), otherwise the first part is
the instrument and the rest rejoined with `'-'` is the band.  The function is
total on strings (the `except` branch of the Python code is unreachable for
`str` inputs, since `split`/`join` never raise there). -/
def parseFilename (filename fileType : String) : String × String :=
  match splitChar '-' (strippedToken filename fileType) with
  | [] => ("", "")
  | [p] => (String.mk p, String.mk p)
  | p :: ps => (String.mk p, String.mk (List.intercalate ['-'] ps))

/-- C4: for every parsed filename, a stripped token without `'-'` yields
instrument = band = token; a token with `'-'` yields the first dash-separated
part as instrument and the remaining parts rejoined with `'-'` as band. -/
theorem parseFilename_spec (filename fileType : String) :
    (('-' ∉ strippedToken filename fileType) →
      parseFilename filename fileType =
        (String.mk (strippedToken filename fileType),
         String.mk (strippedToken filename fileType))) ∧
    (('-' ∈ strippedToken filename fileType) →
      ∃ p ps, splitChar '-' (strippedToken filename fileType) = p :: ps ∧
        ps ≠ [] ∧
        parseFilename filename fileType =
          (String.mk p, String.mk (List.intercalate ['-'] ps))) := by
  constructor
  · intro hnot
    have h1 := splitChar_of_not_mem '-' (strippedToken filename fileType) hnot
    unfold parseFilename
    rw [h1]
  · intro hmem
    have h2 := splitChar_length_ge_two '-' (strippedToken filename fileType) hmem
    cases hq : splitChar '-' (strippedToken filename fileType) with
    | nil => exact absurd hq (splitChar_ne_nil _ _)
    | cons p ps =>
      refine ⟨p, ps, rfl, ?_, ?_⟩
      · rw [hq] at h2
        simp only [List.length_cons] at h2
        intro hps
        rw [hps] at h2
        simp at h2
      · unfold parseFilename
        rw [hq]
        cases ps with
        | nil =>
          rw [hq] at h2
          simp at h2
        | cons q qs => rfl

/-- Witness for C4 on a concrete archive filename: for
`EUC_MER_BGSUB-MOSAIC-NIR-Y_TILE102018211-1A2B3C.fits` with file type
`BGSUB`, the stripped token is `NIR-Y` and the parse yields instrument `NIR`
and band `Y`. -/
theorem parseFilename_spec_witness :
    ('-' ∈ strippedToken "EUC_MER_BGSUB-MOSAIC-NIR-Y_TILE102018211-1A2B3C.fits" "BGSUB") ∧
    parseFilename "EUC_MER_BGSUB-MOSAIC-NIR-Y_TILE102018211-1A2B3C.fits" "BGSUB" =
      ("NIR", "Y") := by
  have hm : '-' ∈ strippedToken "EUC_MER_BGSUB-MOSAIC-NIR-Y_TILE102018211-1A2B3C.fits" "BGSUB" := by
    decide
  refine ⟨hm, ?_⟩
  obtain ⟨p, ps, hsplit, -, heq⟩ :=
    (parseFilename_spec "EUC_MER_BGSUB-MOSAIC-NIR-Y_TILE102018211-1A2B3C.fits" "BGSUB").2 hm
  have hp : splitChar '-' (strippedToken "EUC_MER_BGSUB-MOSAIC-NIR-Y_TILE102018211-1A2B3C.fits" "BGSUB")
      = ['N','I','R'] :: [['Y']] := by decide
  rw [hp] at hsplit
  cases hsplit
  rw [heq]
  decide

/-! ## `np.argmin` and true angular separation -/

/-- `np.argmin`: index of the first occurrence of the minimum of a list.
An empty array makes numpy raise; callers below only reach it with a
non-empty list (the Python exception path is modelled separately). -/
def argminIdx {α : Type} [LinearOrder α] : List α → Nat
  | [] => 0
  | [_] => 0
  | a :: b :: l =>
    if (b :: l).getD (argminIdx (b :: l)) b < a then argminIdx (b :: l) + 1 else 0

theorem argminIdx_lt_length {α : Type} [LinearOrder α] :
    ∀ (l : List α), l ≠ [] → argminIdx l < l.length := by
  intro l
  induction l with
  | nil => intro h; exact absurd rfl h
  | cons a t ih =>
    intro _
    cases t with
    | nil => simp [argminIdx]
    | cons b t' =>
      have hlt := ih (by simp)
      simp only [argminIdx]
      by_cases hc : (b :: t').getD (argminIdx (b :: t')) b < a
      · rw [if_pos hc]
        simp only [List.length_cons] at hlt ⊢
        omega
      · rw [if_neg hc]
        simp

theorem getD_eq_getElem_of_lt {α : Type} (l : List α) (n : Nat) (d : α)
    (h : n < l.length) : l.getD n d = l[n] := by
  simp [List.getD_eq_getElem?_getD, List.getElem?_eq_getElem h]

/-- The value at the argmin index is a lower bound for every list element. -/
theorem argminIdx_le_of_mem {α : Type} [LinearOrder α] :
    ∀ (l : List α) (d : α), ∀ x ∈ l, l.getD (argminIdx l) d ≤ x := by
  intro l
  induction l with
  | nil => intro d x hx; simp at hx
  | cons a t ih =>
    intro d x hx
    cases t with
    | nil =>
      simp only [List.mem_singleton] at hx
      simp [argminIdx, hx]
    | cons b t' =>
      have hm := argminIdx_lt_length (b :: t') (by simp)
      simp only [argminIdx]
      by_cases hc : (b :: t').getD (argminIdx (b :: t')) b < a
      · rw [if_pos hc]
        have hval : (a :: b :: t').getD (argminIdx (b :: t') + 1) d
            = (b :: t').getD (argminIdx (b :: t')) d := by
          simp [List.getD_cons_succ]
        rw [hval]
        rcases List.mem_cons.mp hx with h0 | h1
        · subst h0
          calc (b :: t').getD (argminIdx (b :: t')) d
              = (b :: t').getD (argminIdx (b :: t')) b := by
                rw [getD_eq_getElem_of_lt _ _ _ hm, getD_eq_getElem_of_lt _ _ _ hm]
            _ ≤ x := le_of_lt hc
        · exact ih d x h1
      · rw [if_neg hc]
        simp only [List.getD_cons_zero]
        rcases List.mem_cons.mp hx with h0 | h1
        · exact le_of_eq h0.symm
        · calc a ≤ (b :: t').getD (argminIdx (b :: t')) b := le_of_not_lt hc
            _ ≤ x := ih b x h1

theorem getD_map {α β : Type} (f : α → β) :
    ∀ (l : List α) (n : Nat) (d : α),
      (l.map f).getD n (f d) = f (l.getD n d) := by
  intro l
  induction l with
  | nil => intro n d; simp
  | cons a t ih =>
    intro n d
    cases n with
    | zero => simp
    | succ m => simp [ih m d]

/-- Degrees to radians, as astropy does before any spherical trigonometry. -/
noncomputable def deg2rad (q : ℚ) : ℝ := (q : ℝ) * Real.pi / 180

/-- True angular separation on the sphere between two (RA, Dec) positions in
degrees (`SkyCoord.separation`): the spherical law of cosines.  astropy
evaluates the Vincenty formula, which agrees with this function on the
mathematical reals. -/
noncomputable def sepAngle (ra1 dec1 ra2 dec2 : ℚ) : ℝ :=
  Real.arccos (Real.sin (deg2rad dec1) * Real.sin (deg2rad dec2) +
    Real.cos (deg2rad dec1) * Real.cos (deg2rad dec2) *
      Real.cos (deg2rad ra1 - deg2rad ra2))

/-! ## SpatialTileIndex: `query_tile_id`
(`euclid_cutout_remix.py` lines 111-139) -/

/-- One row of the tile coordinate index (`TILE_ID`, bounding box, center). -/
structure TileRec where
  tileId : String
  raMin : ℚ
  raMax : ℚ
  decMin : ℚ
  decMax : ℚ
  raCenter : ℚ
  decCenter : ℚ
deriving DecidableEq

/-- Default record used only as the (irrelevant) `getD` fallback. -/
def defaultTile : TileRec := ⟨"", 0, 0, 0, 0, 0, 0⟩

/-- The tolerance-expanded bounding-box mask of `query_tile_id`. -/
def bboxMatch (ra dec tol : ℚ) (t : TileRec) : Bool :=
  decide (t.raMin - tol ≤ ra) && decide (ra ≤ t.raMax + tol) &&
    decide (t.decMin - tol ≤ dec) && decide (dec ≤ t.decMax + tol)

/-- `query_tile_id` after the tile index has been read: filter by the
tolerance-expanded bounding box; zero matches → `None`; one match → its id;
several matches → the one whose center has the `np.argmin`-smallest true
angular separation from the query position. -/
noncomputable def queryTileId (tiles : List TileRec) (ra dec tol : ℚ) :
    Option String :=
  match tiles.filter (bboxMatch ra dec tol) with
  | [] => none
  | [t] => some t.tileId
  | t1 :: t2 :: rest =>
    some (((t1 :: t2 :: rest).getD
      (argminIdx ((t1 :: t2 :: rest).map fun t =>
        sepAngle ra dec t.raCenter t.decCenter)) defaultTile).tileId)

/-- `query_tile_id` including the fallible read of the tile index file: the
whole body runs under `try`/`except`, so a read failure (missing file,
malformed table) yields `None` exactly like a position matching no tile. -/
noncomputable def queryTileIdFromRead (readResult : Option (List TileRec))
    (ra dec tol : ℚ) : Option String :=
  match readResult with
  | none => none
  | some tiles => queryTileId tiles ra dec tol

/-- Two concrete overlapping tiles whose centers are symmetric about the
equator: a query at the origin is at exactly equal true angular separation
from both centers. -/
def tileA : TileRec := ⟨"A", -1, 1, -1, 1, 0, 1/2⟩

/-- Mirror tile of `tileA` (see there). -/
def tileB : TileRec := ⟨"B", -1, 1, -1, 1, 0, -1/2⟩

theorem bboxMatch_tileA : bboxMatch 0 0 (1/100) tileA = true := by
  simp only [bboxMatch, tileA, Bool.and_eq_true, decide_eq_true_eq]
  norm_num

theorem bboxMatch_tileB : bboxMatch 0 0 (1/100) tileB = true := by
  simp only [bboxMatch, tileB, Bool.and_eq_true, decide_eq_true_eq]
  norm_num

theorem filter_pair_AB :
    [tileA, tileB].filter (bboxMatch 0 0 (1/100)) = [tileA, tileB] := by
  simp only [List.filter_cons, List.filter_nil, bboxMatch_tileA, bboxMatch_tileB]
  simp

theorem filter_pair_BA :
    [tileB, tileA].filter (bboxMatch 0 0 (1/100)) = [tileB, tileA] := by
  simp only [List.filter_cons, List.filter_nil, bboxMatch_tileA, bboxMatch_tileB]
  simp

theorem sepAngle_eq_of_mirror :
    sepAngle 0 0 tileB.raCenter tileB.decCenter
      = sepAngle 0 0 tileA.raCenter tileA.decCenter := by
  unfold sepAngle tileA tileB deg2rad
  have hneg : ((-1/2 : ℚ) : ℝ) * Real.pi / 180
      = -(((1/2 : ℚ) : ℝ) * Real.pi / 180) := by
    push_cast
    ring
  rw [hneg, Real.cos_neg, Real.sin_neg]
  norm_num

/-- C2, counterexample: with two bounding-box matches at exactly equal true
angular separation, `query_tile_id` returns whichever tile is enumerated
first in the index, so the returned id depends on the enumeration order. -/
theorem queryTileId_order_dependent :
    queryTileId [tileA, tileB] 0 0 (1/100) = some "A" ∧
    queryTileId [tileB, tileA] 0 0 (1/100) = some "B" ∧
    tileA.tileId ≠ tileB.tileId := by
  have hfAB := filter_pair_AB
  have hfBA := filter_pair_BA
  have hsep := sepAngle_eq_of_mirror
  refine ⟨?_, ?_, by decide⟩
  · simp only [queryTileId, hfAB, List.map_cons, List.map_nil]
    simp only [argminIdx, List.getD_cons_zero, hsep, lt_irrefl, if_false]
    rfl
  · simp only [queryTileId, hfBA, List.map_cons, List.map_nil]
    simp only [argminIdx, List.getD_cons_zero, ← hsep, lt_irrefl, if_false]
    rfl

/-- C2, amended: whenever the tolerance-expanded bounding-box test matches at
least two tiles, `query_tile_id` returns the id of a matched tile whose
center attains the smallest true angular separation from the position (for a
fixed index the result is deterministic; under exact separation ties the
first enumerated minimizer wins, so it is not independent of enumeration
order). -/
theorem queryTileId_nearest_center (tiles : List TileRec) (ra dec tol : ℚ)
    (h2 : 2 ≤ (tiles.filter (bboxMatch ra dec tol)).length) :
    ∃ t ∈ tiles.filter (bboxMatch ra dec tol),
      queryTileId tiles ra dec tol = some t.tileId ∧
      ∀ u ∈ tiles.filter (bboxMatch ra dec tol),
        sepAngle ra dec t.raCenter t.decCenter ≤
          sepAngle ra dec u.raCenter u.decCenter := by
  cases hf : tiles.filter (bboxMatch ra dec tol) with
  | nil => rw [hf] at h2; simp at h2
  | cons t1 ts =>
    cases ts with
    | nil => rw [hf] at h2; simp at h2
    | cons t2 rest =>
      set f : TileRec → ℝ := fun t => sepAngle ra dec t.raCenter t.decCenter
        with hfd
      set m : List TileRec := t1 :: t2 :: rest with hmd
      set k : Nat := argminIdx (m.map f) with hkd
      have hlen : k < m.length := by
        have h0 := argminIdx_lt_length (m.map f) (by simp [hmd])
        rw [List.length_map] at h0
        exact h0
      refine ⟨m.getD k defaultTile, ?_, ?_, ?_⟩
      · rw [getD_eq_getElem_of_lt _ _ _ hlen]
        exact List.getElem_mem hlen
      · simp only [queryTileId, hf, hmd, hfd, hkd]
      · intro u hu
        have hsepm : f u ∈ m.map f := List.mem_map_of_mem f hu
        have hmin := argminIdx_le_of_mem (m.map f) (f defaultTile) (f u) hsepm
        have hmap := getD_map f m k defaultTile
        rw [← hkd, hmap] at hmin
        exact hmin

/-- Closed witness for `queryTileId_nearest_center` at a two-tile index. -/
theorem queryTileId_nearest_center_witness :
    2 ≤ ([tileA, tileB].filter (bboxMatch 0 0 (1/100))).length ∧
    ∃ t ∈ [tileA, tileB].filter (bboxMatch 0 0 (1/100)),
      queryTileId [tileA, tileB] 0 0 (1/100) = some t.tileId ∧
      ∀ u ∈ [tileA, tileB].filter (bboxMatch 0 0 (1/100)),
        sepAngle 0 0 t.raCenter t.decCenter ≤
          sepAngle 0 0 u.raCenter u.decCenter := by
  have hlen : 2 ≤ ([tileA, tileB].filter (bboxMatch 0 0 (1/100))).length := by
    rw [filter_pair_AB]
    simp
  exact ⟨hlen, queryTileId_nearest_center [tileA, tileB] 0 0 (1/100) hlen⟩

/-- C10: `query_tile_id` returns `None` both when the tile-index read fails
(the `except` path) and when the index matches no tile, so the two outcomes
are indistinguishable to callers. -/
theorem queryTileIdFromRead_total (ra dec tol : ℚ) (tiles : List TileRec)
    (hnm : ∀ t ∈ tiles, bboxMatch ra dec tol t = false) :
    queryTileIdFromRead none ra dec tol = none ∧
    queryTileIdFromRead (some tiles) ra dec tol = none ∧
    queryTileIdFromRead none ra dec tol
      = queryTileIdFromRead (some tiles) ra dec tol := by
  have hf : tiles.filter (bboxMatch ra dec tol) = [] := by
    rw [List.filter_eq_nil_iff]
    intro t ht
    simp [hnm t ht]
  refine ⟨rfl, ?_, ?_⟩
  · simp only [queryTileIdFromRead, queryTileId, hf]
  · simp only [queryTileIdFromRead, queryTileId, hf]

/-- Closed witness for `queryTileIdFromRead_total`: a position far outside
the single indexed tile. -/
theorem queryTileIdFromRead_total_witness :
    (∀ t ∈ [tileA], bboxMatch 50 50 (1/100) t = false) ∧
    queryTileIdFromRead none 50 50 (1/100) = none ∧
    queryTileIdFromRead (some [tileA]) 50 50 (1/100) = none ∧
    queryTileIdFromRead none 50 50 (1/100)
      = queryTileIdFromRead (some [tileA]) 50 50 (1/100) := by
  have hb : ∀ t ∈ [tileA], bboxMatch 50 50 (1/100) t = false := by
    intro t ht
    simp only [List.mem_singleton] at ht
    subst ht
    simp only [bboxMatch, tileA, Bool.and_eq_false_iff, decide_eq_false_iff_not]
    norm_num
  exact ⟨hb, queryTileIdFromRead_total 50 50 (1/100) [tileA] hb⟩

/-! ## WindowExtractor: `cutout_psf`
(`euclid_cutout_remix.py` lines 326-400) -/

/-- One row of the PSF stamp table (`RA`, `Dec`, `x_center`, `y_center`).
The pixel centers are integers here; Python applies `int(...)` to them, which
is the identity on integral values. -/
structure PsfRow where
  ra : ℚ
  dec : ℚ
  xCenter : ℤ
  yCenter : ℤ

/-- The parts of a PSF catalog file that `cutout_psf` reads: the backing
stamp-image shape `(h, w) = img_data.shape`, the `STMPSIZE` header value
(`header.get('STMPSIZE', 0)`, a non-negative integer), and the stamp table. -/
structure PsfFile where
  h : Nat
  w : Nat
  stmpsize : Nat
  table : List PsfRow

/-- Result envelope of `cutout_psf`, carrying the shape of the returned
stamp data and the nearest-stamp provenance recorded in the header
(`PSF_IDX`, `PSF_XCTR`, `PSF_YCTR`). -/
inductive PsfOut where
  | fail (msg : String)
  | ok (nRows nCols : Nat) (idx : Nat) (xCtr yCtr : ℤ)
deriving DecidableEq

/-- Length of the numpy slice `a[start:stop]` over an axis of size `n`, for
a non-negative `start` (the only case reached in `cutout_psf`). -/
def sliceLen (start stop : ℤ) (n : Nat) : Nat :=
  (min stop (n : ℤ) - max start 0).toNat

/-- The window-slide step of `cutout_psf` on one axis:
`if x_min + stmpsize > shape: x_min = shape - stmpsize`. -/
def slideOrigin (x0 : ℤ) (k n : Nat) : ℤ :=
  if x0 + (k : ℤ) > (n : ℤ) then (n : ℤ) - (k : ℤ) else x0

theorem sliceLen_slideOrigin (x0 : ℤ) (k n : Nat)
    (h : ¬ slideOrigin x0 k n < 0) :
    sliceLen (slideOrigin x0 k n) (slideOrigin x0 k n + (k : ℤ)) n = k := by
  simp only [slideOrigin, sliceLen] at h ⊢
  split_ifs at h ⊢ with hc
  · omega
  · push_neg at hc
    omega

theorem slideOrigin_neg (x0 : ℤ) (k n : Nat) (h0 : 0 ≤ x0) (hn : n < k) :
    slideOrigin x0 k n < 0 := by
  simp only [slideOrigin]
  split_ifs with hc
  · omega
  · omega

/-- `cutout_psf`: reject a missing stamp width; find the nearest stamp by
true angular separation (`np.argmin`); derive pixel bounds from its center
and the stamp width; slide the window back inside the array when it
overhangs; fail if the slid origin is negative; otherwise slice.  An empty
stamp table makes `np.argmin` raise, which the enclosing `except` turns into
a failure result. -/
noncomputable def cutoutPsf (f : PsfFile) (ra dec : ℚ) : PsfOut :=
  if f.stmpsize = 0 then .fail "PSF文件中没有STMPSIZE信息"
  else
    match f.table with
    | [] => .fail "attempt to get argmin of an empty sequence"
    | r0 :: rs =>
      let i := argminIdx ((r0 :: rs).map fun r => sepAngle ra dec r.ra r.dec)
      let p := (r0 :: rs).getD i ⟨0, 0, 0, 0⟩
      let half : ℤ := (f.stmpsize : ℤ) / 2
      let xMin0 : ℤ := max 0 (p.xCenter - half - 1)
      let yMin0 : ℤ := max 0 (p.yCenter - half - 1)
      let xMin : ℤ := slideOrigin xMin0 f.stmpsize f.w
      let yMin : ℤ := slideOrigin yMin0 f.stmpsize f.h
      if xMin < 0 ∨ yMin < 0 then .fail "PSF裁剪区域超出图像边界"
      else
        let nRows := sliceLen yMin (yMin + f.stmpsize) f.h
        let nCols := sliceLen xMin (xMin + f.stmpsize) f.w
        if nRows * nCols = 0 then .fail "PSF裁剪得到空数组"
        else .ok nRows nCols i p.xCenter p.yCenter

/-- C3: a successful `cutout_psf` returns stamp data of exactly
`STMPSIZE × STMPSIZE`; and whenever clamping the stamp bounds to the backing
array would shrink the slice below the declared width (the width exceeds an
array dimension), `cutout_psf` fails instead of returning a truncated
stamp. -/
theorem cutoutPsf_exact_size_or_fail :
    (∀ (f : PsfFile) (ra dec : ℚ) (r c i : Nat) (cx cy : ℤ),
      cutoutPsf f ra dec = PsfOut.ok r c i cx cy →
        r = f.stmpsize ∧ c = f.stmpsize) ∧
    (∀ (f : PsfFile) (ra dec : ℚ), f.stmpsize ≠ 0 → f.table ≠ [] →
      (f.w < f.stmpsize ∨ f.h < f.stmpsize) →
      ∃ msg, cutoutPsf f ra dec = PsfOut.fail msg) := by
  constructor
  · intro f ra dec r c i cx cy hok
    by_cases h0 : f.stmpsize = 0
    · simp [cutoutPsf, h0] at hok
    · cases ht : f.table with
      | nil => simp [cutoutPsf, h0, ht] at hok
      | cons r0 rs =>
        simp only [cutoutPsf, if_neg h0, ht] at hok
        split_ifs at hok with h1 h2
        simp only [PsfOut.ok.injEq] at hok
        obtain ⟨hr, hc, -, -, -⟩ := hok
        push_neg at h1
        obtain ⟨hx, hy⟩ := h1
        exact ⟨by rw [← hr, sliceLen_slideOrigin _ _ _ (not_lt_of_le hy)],
               by rw [← hc, sliceLen_slideOrigin _ _ _ (not_lt_of_le hx)]⟩
  · intro f ra dec h0 ht hsmall
    obtain ⟨r0, rs, ht'⟩ := List.exists_cons_of_ne_nil ht
    refine ⟨"PSF裁剪区域超出图像边界", ?_⟩
    simp only [cutoutPsf, if_neg h0, ht']
    rw [if_pos]
    rcases hsmall with hw | hh
    · exact Or.inl (slideOrigin_neg _ _ _ (le_max_left _ _) hw)
    · exact Or.inr (slideOrigin_neg _ _ _ (le_max_left _ _) hh)

/-- Closed witness for C3: a 10×10 backing array, stamp width 4, one stamp
centered at pixel (5,5) yields a 4×4 stamp; and the same file shrunk to a
3-pixel-wide array fails. -/
theorem cutoutPsf_exact_size_or_fail_witness :
    cutoutPsf ⟨10, 10, 4, [⟨0, 0, 5, 5⟩]⟩ 0 0 = PsfOut.ok 4 4 0 5 5 ∧
    (4 = (⟨10, 10, 4, [⟨0, 0, 5, 5⟩]⟩ : PsfFile).stmpsize ∧
      4 = (⟨10, 10, 4, [⟨0, 0, 5, 5⟩]⟩ : PsfFile).stmpsize) ∧
    ∃ msg, cutoutPsf ⟨10, 3, 4, [⟨0, 0, 5, 5⟩]⟩ 0 0 = PsfOut.fail msg := by
  have hok : cutoutPsf ⟨10, 10, 4, [⟨0, 0, 5, 5⟩]⟩ 0 0 = PsfOut.ok 4 4 0 5 5 := by
    simp only [cutoutPsf, argminIdx, sliceLen, slideOrigin]
    norm_num
    rfl
  refine ⟨hok, ?_, ?_⟩
  · exact cutoutPsf_exact_size_or_fail.1 ⟨10, 10, 4, [⟨0, 0, 5, 5⟩]⟩ 0 0 4 4 0 5 5 hok
  · exact cutoutPsf_exact_size_or_fail.2 ⟨10, 3, 4, [⟨0, 0, 5, 5⟩]⟩ 0 0
      (by norm_num) (by simp) (by norm_num)

/-! ## FileNameResolver: `find_files`
(`euclid_cutout_remix.py` lines 200-266) -/

/-- Substring containment (Python `needle in hay`) for a non-empty needle. -/
def containsSub (needle hay : List Char) : Bool :=
  (splitFirst needle hay).isSome

/-- One entry of `os.listdir(mer_dir)`: its name, whether it is a directory,
and (when a directory) the `.fits`-candidate listing inside it. -/
structure InstrumentDir where
  name : String
  isDir : Bool
  files : List String
deriving DecidableEq

/-- The tile directory `mer_root/tile_id` as `find_files` observes it. -/
structure TileDir where
  dirExists : Bool
  entries : List InstrumentDir
deriving DecidableEq

/-- The glob stage of `find_files`: name contains `EUC_MER_{pattern}` and
ends in `.fits`. -/
def fileMatchesGlob (fileType f : String) : Bool :=
  containsSub ("EUC_MER_" ++ getFilePattern fileType).toList f.toList &&
    ".fits".toList.isSuffixOf f.toList

/-- The named exclusion of catalog-index files (`'FINAL-CAT' in fits_file`). -/
def isCatalogIndexFile (f : String) : Bool :=
  containsSub "FINAL-CAT".toList f.toList

/-- The instrument filter of `find_files` (directory name membership). -/
def instrumentAllowed (instruments : Option (List String)) (name : String) :
    Bool :=
  match instruments with
  | none => true
  | some l => l.contains name

/-- The band filter of `find_files`: the parsed full band
(`{inst}-{band}` unless single-channel) must be listed. -/
def bandAllowed (bands : Option (List String)) (inst band : String) : Bool :=
  match bands with
  | none => true
  | some l => l.contains (if inst ≠ band then inst ++ "-" ++ band else band)

/-- Result-dict key of `find_files`:
`{instrument_dir}_{inst}-{band}` (or `{instrument_dir}_{band}` when
single-channel). -/
def fileKey (dirName inst band : String) : String :=
  if inst ≠ band then dirName ++ "_" ++ inst ++ "-" ++ band
  else dirName ++ "_" ++ band

/-- All per-file selection conditions of `find_files` combined (entry is a
directory, instrument filter, glob, catalog-index exclusion, band filter).
`_parse_filename` is total on strings, so its `None`-skip branch is
unreachable and does not appear. -/
def fileSelected (fileType : String) (instruments bands : Option (List String))
    (d : InstrumentDir) (f : String) : Bool :=
  d.isDir && instrumentAllowed instruments d.name &&
    fileMatchesGlob fileType f && !isCatalogIndexFile f &&
    bandAllowed bands (parseFilename f fileType).1 (parseFilename f fileType).2

/-- `find_files`: absent tile directory → empty mapping; otherwise scan each
instrument directory, apply the filters, and map each surviving file to its
key and full path. -/
def findFiles (td : TileDir) (tileId fileType merRoot : String)
    (instruments bands : Option (List String)) : List (String × String) :=
  if td.dirExists = false then []
  else
    td.entries.flatMap fun d =>
      if d.isDir = false then []
      else if instrumentAllowed instruments d.name = false then []
      else
        (d.files.filter fun f =>
            fileMatchesGlob fileType f && !isCatalogIndexFile f).filterMap
          fun f =>
            if bandAllowed bands (parseFilename f fileType).1
                (parseFilename f fileType).2 = false then none
            else
              some (fileKey d.name (parseFilename f fileType).1
                      (parseFilename f fileType).2,
                    merRoot ++ "/" ++ tileId ++ "/" ++ d.name ++ "/" ++ f)

/-- C6: `find_files` returns the empty mapping — as a value, without raising
— both when the tile directory is absent and when no file passes the
requested filters. -/
theorem findFiles_empty (td : TileDir) (tileId fileType merRoot : String)
    (instruments bands : Option (List String)) :
    (td.dirExists = false →
      findFiles td tileId fileType merRoot instruments bands = []) ∧
    ((∀ d ∈ td.entries, ∀ f ∈ d.files,
        fileSelected fileType instruments bands d f = false) →
      findFiles td tileId fileType merRoot instruments bands = []) := by
  constructor
  · intro h
    simp [findFiles, h]
  · intro h
    unfold findFiles
    split_ifs with h0
    · rfl
    · rw [List.flatMap_eq_nil_iff]
      intro d hd
      split_ifs with h1 h2
      · rfl
      · rfl
      · rw [List.filterMap_eq_nil_iff]
        intro f hf
        rw [List.mem_filter] at hf
        obtain ⟨hfm, hglob⟩ := hf
        rw [Bool.and_eq_true] at hglob
        have hsel := h d hd f hfm
        simp only [fileSelected, Bool.and_eq_false_iff] at hsel
        rw [if_pos]
        rcases hsel with ((((hd' | hi) | hg) | hc) | hb)
        · exact absurd hd' h1
        · exact absurd hi h2
        · exact absurd hglob.1 (by simp [hg])
        · exact absurd hglob.2 (by simp_all)
        · exact hb

/-- Closed witness for C6: an absent tile directory yields `{}`, and a tile
holding only a catalog-index file yields `{}`. -/
theorem findFiles_empty_witness :
    ((⟨false, []⟩ : TileDir).dirExists = false ∧
      findFiles ⟨false, []⟩ "102" "BGSUB" "/mer" none none = []) ∧
    ((∀ d ∈ (⟨true, [⟨"VIS", true,
          ["EUC_MER_FINAL-CAT_TILE102.fits"]⟩]⟩ : TileDir).entries,
        ∀ f ∈ d.files, fileSelected "BGSUB" none none d f = false) ∧
      findFiles ⟨true, [⟨"VIS", true, ["EUC_MER_FINAL-CAT_TILE102.fits"]⟩]⟩
        "102" "BGSUB" "/mer" none none = []) :=
  ⟨⟨rfl, (findFiles_empty ⟨false, []⟩ "102" "BGSUB" "/mer" none none).1 rfl⟩,
   ⟨by decide,
    (findFiles_empty ⟨true, [⟨"VIS", true, ["EUC_MER_FINAL-CAT_TILE102.fits"]⟩]⟩
      "102" "BGSUB" "/mer" none none).2 (by decide)⟩⟩

/-! ## WindowExtractor + orchestration: `cutout_tile`
(`euclid_cutout_remix.py` lines 403-475; the per-file extraction envelope of
`cutout_image`/`cutout_psf`, lines 273-400, enters as the environment `env`
mapping a file path to its extraction outcome) -/

/-- The fields of the uniform extraction envelope that `cutout_tile`
inspects: `success` and the eagerly computed `contains_nan` flag. -/
structure CutoutRes where
  success : Bool
  containsNan : Bool
deriving DecidableEq

/-- A `cutouts`-dict value: the extraction result annotated with the
instrument and band parsed from the result key. -/
structure CutoutEntry where
  res : CutoutRes
  instrument : String
  band : String
deriving DecidableEq

/-- The result envelope of `cutout_tile`. -/
structure TileCutouts where
  success : Bool
  cutouts : List (String × CutoutEntry)
  error : Option String
deriving DecidableEq

/-- `key.split('_', 1)` with the two-variable unpacking: `none` models the
`ValueError` when the key holds no `'_'`. -/
def keySplit (key : String) : Option (String × String) :=
  match splitFirst ['_'] key.toList with
  | none => none
  | some (b, a) => some (String.mk b, String.mk a)

/-- The per-file loop body of `cutout_tile`: parse the key (with the
`CATALOG-PSF` fallback to `('CATALOG', 'PSF')`, and skip on a parse failure
otherwise), run the extraction, skip failed extractions, and — under
`skip_nan` — skip results flagged as containing invalid values. -/
def cutoutStep (env : String → CutoutRes) (skipNan : Bool) (fileType : String)
    (kp : String × String) : Option (String × CutoutEntry) :=
  match keySplit kp.1 with
  | some (inst, band) =>
    if (env kp.2).success then
      if (env kp.2).containsNan && skipNan then none
      else some (kp.1, ⟨env kp.2, inst, band⟩)
    else none
  | none =>
    if fileType = "CATALOG-PSF" then
      if (env kp.2).success then
        if (env kp.2).containsNan && skipNan then none
        else some (kp.1, ⟨env kp.2, "CATALOG", "PSF"⟩)
      else none
    else none

/-- `cutout_tile`: resolve the files, extract each, collect the surviving
results; report failure with an error message when nothing survives. -/
def cutoutTile (td : TileDir) (tileId fileType merRoot : String)
    (instruments bands : Option (List String)) (env : String → CutoutRes)
    (skipNan : Bool) : TileCutouts :=
  match findFiles td tileId fileType merRoot instruments bands with
  | [] => ⟨false, [], some ("未找到TILE " ++ tileId ++ " 的 " ++ fileType ++ " 文件")⟩
  | kp :: kps =>
    match (kp :: kps).filterMap (cutoutStep env skipNan fileType) with
    | [] => ⟨false, [], some "所有波段裁剪都失败或包含NaN"⟩
    | c :: cs => ⟨true, c :: cs, none⟩

theorem cutoutStep_skip_nan (env : String → CutoutRes) (fileType : String)
    (kp : String × String) (k : String) (e : CutoutEntry)
    (h : cutoutStep env true fileType kp = some (k, e)) :
    e.res.success = true ∧ e.res.containsNan = false := by
  unfold cutoutStep at h
  cases hks : keySplit kp.1 with
  | some p =>
    obtain ⟨inst, band⟩ := p
    rw [hks] at h
    simp only at h
    split_ifs at h with hs hn
    simp only [Option.some.injEq, Prod.mk.injEq] at h
    obtain ⟨-, he⟩ := h
    rw [← he]
    simp only [Bool.and_true] at hn
    exact ⟨hs, by simpa using hn⟩
  | none =>
    rw [hks] at h
    simp only at h
    split_ifs at h with hft hs hn
    simp only [Option.some.injEq, Prod.mk.injEq] at h
    obtain ⟨-, he⟩ := h
    rw [← he]
    simp only [Bool.and_true] at hn
    exact ⟨hs, by simpa using hn⟩

/-- C5: with `skip_nan` enabled, every entry of the returned `cutouts`
mapping is a successful extraction whose invalid-value flag is clear (so a
successful-but-flagged extraction is never reported); and whenever no
candidate survives, `cutout_tile` reports `success = False` with an error
message. -/
theorem cutoutTile_invalid_value_policy (td : TileDir)
    (tileId fileType merRoot : String)
    (instruments bands : Option (List String)) (env : String → CutoutRes)
    (skipNan : Bool) :
    ((∀ k e, (k, e) ∈
        (cutoutTile td tileId fileType merRoot instruments bands env
          true).cutouts →
        e.res.success = true ∧ e.res.containsNan = false)) ∧
    ((cutoutTile td tileId fileType merRoot instruments bands env
        skipNan).cutouts = [] →
      (cutoutTile td tileId fileType merRoot instruments bands env
        skipNan).success = false ∧
      (cutoutTile td tileId fileType merRoot instruments bands env
        skipNan).error ≠ none) := by
  constructor
  · intro k e hmem
    unfold cutoutTile at hmem
    split at hmem
    · simp at hmem
    · split at hmem
      · simp at hmem
      · next heq =>
        rw [← heq] at hmem
        simp only at hmem
        rw [List.mem_filterMap] at hmem
        obtain ⟨kp, -, hstep⟩ := hmem
        exact cutoutStep_skip_nan env fileType kp k e hstep
  · intro hnil
    unfold cutoutTile at hnil ⊢
    split at hnil
    · exact ⟨rfl, by simp⟩
    · split at hnil
      · exact ⟨rfl, by simp⟩
      · simp at hnil

/-- A one-tile, one-file filesystem for exercising `cutout_tile`. -/
def tdC5 : TileDir :=
  ⟨true, [⟨"NISP", true, ["EUC_MER_BGSUB-MOSAIC-NIR-Y_TILE102-AB.fits"]⟩]⟩

/-- Extraction environment: every file extracts successfully but with
invalid values present. -/
def envNanC5 : String → CutoutRes := fun _ => ⟨true, true⟩

/-- Extraction environment: every file extracts successfully and clean. -/
def envCleanC5 : String → CutoutRes := fun _ => ⟨true, false⟩

/-- Closed witness for C5: a clean extraction lands in the mapping with its
flags as the theorem states, while an all-flagged tile under `skip_nan`
yields an empty mapping, `success = False` and an error message. -/
theorem cutoutTile_invalid_value_policy_witness :
    (("NISP_NIR-Y", (⟨⟨true, false⟩, "NISP", "NIR-Y"⟩ : CutoutEntry)) ∈
        (cutoutTile tdC5 "102" "BGSUB" "/mer" none none envCleanC5
          true).cutouts ∧
      (⟨⟨true, false⟩, "NISP", "NIR-Y"⟩ : CutoutEntry).res.success = true ∧
      (⟨⟨true, false⟩, "NISP", "NIR-Y"⟩ : CutoutEntry).res.containsNan
        = false) ∧
    ((cutoutTile tdC5 "102" "BGSUB" "/mer" none none envNanC5 true).cutouts
        = [] ∧
      (cutoutTile tdC5 "102" "BGSUB" "/mer" none none envNanC5 true).success
        = false ∧
      (cutoutTile tdC5 "102" "BGSUB" "/mer" none none envNanC5 true).error
        ≠ none) := by
  refine ⟨⟨by decide, ?_⟩, ⟨by decide, ?_, ?_⟩⟩
  · exact (cutoutTile_invalid_value_policy tdC5 "102" "BGSUB" "/mer"
      none none envCleanC5 true).1 "NISP_NIR-Y"
      ⟨⟨true, false⟩, "NISP", "NIR-Y"⟩ (by decide)
  · exact ((cutoutTile_invalid_value_policy tdC5 "102" "BGSUB" "/mer"
      none none envNanC5 true).2 (by decide)).1
  · exact ((cutoutTile_invalid_value_policy tdC5 "102" "BGSUB" "/mer"
      none none envNanC5 true).2 (by decide)).2

/-! ## ArtifactCache: `generate_source_cache_key`
(`Euclid_flash_app.py` lines 317-327) -/

/-- Python `round(x, 6)`: round to six decimal places.  Python uses
round-half-even on the binary float value; a binary float can never be an
exact half-multiple of `10⁻⁶` (the denominator `2·10⁶` contains a factor
`5⁶`), so on the reachable inputs this agrees with Mathlib's `round`. -/
def round6 (q : ℚ) : ℚ := round (q * 1000000) / 1000000

/-- `band if band else 'unknown'`: a missing or empty band falls back to the
literal `'unknown'`. -/
def normalizeBand (band : Option String) : String :=
  match band with
  | none => "unknown"
  | some b => if b = "" then "unknown" else b

/-- `generate_source_cache_key`: the fingerprint string joined from the
rounded coordinates, size, instrument, product type and normalized band. -/
def generateSourceCacheKey (ra dec : ℚ) (size : Nat)
    (instrument fileType : String) (band : Option String) : String :=
  String.intercalate "_"
    ["ra_" ++ toString (round6 ra), "dec_" ++ toString (round6 dec),
     "size_" ++ toString size, "inst_" ++ instrument,
     "type_" ++ fileType, "band_" ++ normalizeBand band]

theorem string_append_cancel_left (s t u : String) (h : s ++ t = s ++ u) :
    t = u := by
  have h2 := congrArg String.data h
  simp only [String.data_append] at h2
  exact String.ext (List.append_cancel_left h2)

theorem intercalate_six (s A B C D E F : String) :
    String.intercalate s [A, B, C, D, E, F] =
      A ++ s ++ B ++ s ++ C ++ s ++ D ++ s ++ E ++ s ++ F := by
  simp [String.intercalate, String.intercalate.go]

/-- C7, counterexample: a request with no band and a request with the
literal band `'unknown'` differ in band yet receive the same cache key,
because the missing band is normalized to `'unknown'`. -/
theorem generateSourceCacheKey_band_collision :
    generateSourceCacheKey 1 2 64 "VIS" "BGSUB" none
      = generateSourceCacheKey 1 2 64 "VIS" "BGSUB" (some "unknown") ∧
    (none : Option String) ≠ some "unknown" :=
  ⟨rfl, by simp⟩

/-- C7, amended: the cache key is a function of exactly (RA rounded to six
decimals, Dec rounded to six decimals, size, instrument, product type,
normalized band); and two requests for the same target differing in band
receive different keys whenever the normalized bands differ (a missing/empty
band normalizes to `'unknown'` and collides with a literal band
`'unknown'`). -/
theorem generateSourceCacheKey_fingerprint (ra1 dec1 ra2 dec2 : ℚ)
    (size1 size2 : Nat) (i1 i2 t1 t2 : String) (b1 b2 : Option String) :
    (round6 ra1 = round6 ra2 → round6 dec1 = round6 dec2 → size1 = size2 →
      i1 = i2 → t1 = t2 → normalizeBand b1 = normalizeBand b2 →
      generateSourceCacheKey ra1 dec1 size1 i1 t1 b1
        = generateSourceCacheKey ra2 dec2 size2 i2 t2 b2) ∧
    (normalizeBand b1 ≠ normalizeBand b2 →
      generateSourceCacheKey ra1 dec1 size1 i1 t1 b1
        ≠ generateSourceCacheKey ra1 dec1 size1 i1 t1 b2) := by
  constructor
  · intro hra hdec hs hi ht hb
    unfold generateSourceCacheKey
    rw [hra, hdec, hs, hi, ht, hb]
  · intro hb hkey
    unfold generateSourceCacheKey at hkey
    rw [intercalate_six, intercalate_six] at hkey
    apply hb
    have h1 := string_append_cancel_left _ _ _ hkey
    exact string_append_cancel_left _ _ _ h1

/-- Closed witness for `generateSourceCacheKey_fingerprint`: a missing band
and an empty band normalize alike and share a key; two distinct literal
bands get distinct keys. -/
theorem generateSourceCacheKey_fingerprint_witness :
    (normalizeBand none = normalizeBand (some "") ∧
      generateSourceCacheKey 1 2 64 "VIS" "BGSUB" none
        = generateSourceCacheKey 1 2 64 "VIS" "BGSUB" (some "")) ∧
    (normalizeBand (some "NIR-Y") ≠ normalizeBand (some "NIR-J") ∧
      generateSourceCacheKey 1 2 64 "VIS" "BGSUB" (some "NIR-Y")
        ≠ generateSourceCacheKey 1 2 64 "VIS" "BGSUB" (some "NIR-J")) := by
  refine ⟨⟨rfl, ?_⟩, ⟨by decide, ?_⟩⟩
  · exact (generateSourceCacheKey_fingerprint 1 2 1 2 64 64 "VIS" "VIS"
      "BGSUB" "BGSUB" none (some "")).1 rfl rfl rfl rfl rfl rfl
  · exact (generateSourceCacheKey_fingerprint 1 2 1 2 64 64 "VIS" "VIS"
      "BGSUB" "BGSUB" (some "NIR-Y") (some "NIR-J")).2 (by decide)

/-! ## BatchOrchestrator: the statistics accumulation of `process_catalog`
(`euclid_cutout_remix.py` lines 1061-1127) -/

/-- Per-file-type statistics record of `process_catalog`:
`{'success': int, 'failed': int, 'errors': list}`. -/
structure FtStats where
  success : Nat
  failed : Nat
  errors : List String
deriving DecidableEq

/-- One completed unit of the result-collection loop: either a worker result
dict `{'obj_id': ..., 'results': {file_type: status}}` or an exception from
`future.result()` / `_process_single_source_parallel`. -/
inductive ProcItem where
  | result (objId : String) (results : List (String × String))
  | exn
deriving DecidableEq

/-- The per-(file type, status) update: count a success, or count a failure
and — only when verbose and fewer than 10 samples are stored — append the
error sample. -/
def updateFt (verbose : Bool) (objId status : String) (s : FtStats) :
    FtStats :=
  if status = "success" then { s with success := s.success + 1 }
  else
    { s with
      failed := s.failed + 1,
      errors :=
        if verbose = true ∧ s.errors.length < 10 then
          s.errors ++ [objId ++ ": " ++ status]
        else s.errors }

/-- Point update of the stats dict at one file-type key. -/
def updateStats (verbose : Bool) (objId : String)
    (stats : List (String × FtStats)) (ft status : String) :
    List (String × FtStats) :=
  stats.map fun p =>
    if p.1 = ft then (p.1, updateFt verbose objId status p.2) else p

/-- Fold one worker result dict into the stats. -/
def applyResults (verbose : Bool) (objId : String)
    (stats : List (String × FtStats)) (results : List (String × String)) :
    List (String × FtStats) :=
  results.foldl (fun st pr => updateStats verbose objId st pr.1 pr.2) stats

/-- The exception branch: every requested file type counts one failure. -/
def applyExn (fileTypes : List String) (stats : List (String × FtStats)) :
    List (String × FtStats) :=
  stats.map fun p =>
    if fileTypes.contains p.1 then
      (p.1, { p.2 with failed := p.2.failed + 1 })
    else p

/-- `stats = {ft: {'success': 0, 'failed': 0, 'errors': []} for ft in
file_types}`. -/
def initStats (fileTypes : List String) : List (String × FtStats) :=
  fileTypes.map fun ft => (ft, ⟨0, 0, []⟩)

/-- The whole statistics accumulation of a `process_catalog` run over the
sequence of completed units. -/
def processStats (verbose : Bool) (fileTypes : List String)
    (items : List ProcItem) : List (String × FtStats) :=
  items.foldl
    (fun st item =>
      match item with
      | .result objId results => applyResults verbose objId st results
      | .exn => applyExn fileTypes st)
    (initStats fileTypes)

theorem updateFt_errors_le (verbose : Bool) (objId status : String)
    (s : FtStats) (h : s.errors.length ≤ 10) :
    (updateFt verbose objId status s).errors.length ≤ 10 := by
  unfold updateFt
  split_ifs with h1 h2
  · exact h
  · simp only [List.length_append, List.length_singleton]
    omega
  · exact h

theorem applyResults_errors_le (verbose : Bool) (objId : String) :
    ∀ (results : List (String × String)) (stats : List (String × FtStats)),
      (∀ p ∈ stats, p.2.errors.length ≤ 10) →
      ∀ p ∈ applyResults verbose objId stats results,
        p.2.errors.length ≤ 10 := by
  intro results
  induction results with
  | nil => intro stats h p hp; exact h p hp
  | cons pr rest ih =>
    intro stats h p hp
    rw [applyResults, List.foldl_cons] at hp
    refine ih (updateStats verbose objId stats pr.1 pr.2) ?_ p hp
    intro q hq
    rw [updateStats, List.mem_map] at hq
    obtain ⟨q0, hq0, hq1⟩ := hq
    rw [← hq1]
    split_ifs with hk
    · exact updateFt_errors_le verbose objId pr.2 q0.2 (h q0 hq0)
    · exact h q0 hq0

/-- C9: at every point of a `process_catalog` run (formally: after any
sequence of completed units), every file type's `errors` sample list holds
at most 10 entries. -/
theorem processStats_errors_bounded (verbose : Bool)
    (fileTypes : List String) (items : List ProcItem) :
    ∀ p ∈ processStats verbose fileTypes items, p.2.errors.length ≤ 10 := by
  suffices h : ∀ (its : List ProcItem) (stats : List (String × FtStats)),
      (∀ p ∈ stats, p.2.errors.length ≤ 10) →
      ∀ p ∈ its.foldl
        (fun st item =>
          match item with
          | ProcItem.result objId results =>
            applyResults verbose objId st results
          | ProcItem.exn => applyExn fileTypes st) stats,
        p.2.errors.length ≤ 10 by
    intro p hp
    refine h items (initStats fileTypes) ?_ p hp
    intro q hq
    rw [initStats, List.mem_map] at hq
    obtain ⟨ft, -, hq1⟩ := hq
    rw [← hq1]
    simp
  intro its
  induction its with
  | nil => intro stats h p hp; exact h p hp
  | cons item rest ih =>
    intro stats h p hp
    rw [List.foldl_cons] at hp
    cases item with
    | result objId results =>
      exact ih (applyResults verbose objId stats results)
        (applyResults_errors_le verbose objId results stats h) p hp
    | exn =>
      refine ih (applyExn fileTypes stats) ?_ p hp
      intro q hq
      rw [applyExn, List.mem_map] at hq
      obtain ⟨q0, hq0, hq1⟩ := hq
      rw [← hq1]
      split_ifs with hk
      · exact h q0 hq0
      · exact h q0 hq0

/-- Closed witness for C9: twelve failing sources under `verbose` leave
exactly 10 stored error samples for the file type. -/
theorem processStats_errors_bounded_witness :
    (("BGSUB", (⟨0, 12, List.replicate 10 "obj: cutout_failed: x"⟩ : FtStats))
        ∈ processStats true ["BGSUB"]
          (List.replicate 12 (ProcItem.result "obj"
            [("BGSUB", "cutout_failed: x")]))) ∧
    (⟨0, 12, List.replicate 10 "obj: cutout_failed: x"⟩ : FtStats).errors.length
      ≤ 10 := by
  have hm : ("BGSUB",
      (⟨0, 12, List.replicate 10 "obj: cutout_failed: x"⟩ : FtStats))
      ∈ processStats true ["BGSUB"]
        (List.replicate 12 (ProcItem.result "obj"
          [("BGSUB", "cutout_failed: x")])) := by decide
  exact ⟨hm, processStats_errors_bounded true ["BGSUB"]
    (List.replicate 12 (ProcItem.result "obj" [("BGSUB", "cutout_failed: x")]))
    _ hm⟩

/-! ## Task registry statuses
(`euclid_service/core/task_processor.py` lines 37-118,
`euclid_service/core/task_executor.py` lines 77-151) -/

/-- The status `TaskProcessor.create_task` writes when a task enters the
registry. -/
def initialTaskStatus : String := "pending"

/-- The status strings a task in the registry can ever carry.  The write
sites are: `create_task` (`'pending'`), `TaskExecutor.execute` /
`_load_and_validate_catalog` (`'processing'`), `execute` /
`_check_cached_result` (`'completed'`), the `except` branch of `execute`
(`'failed'`), and `cancel_task`, which writes `'cancelled'` only while the
current status is neither `'completed'` nor `'failed'`. -/
inductive ReachableStatus : String → Prop where
  | init : ReachableStatus initialTaskStatus
  | processing (s : String) : ReachableStatus s → ReachableStatus "processing"
  | completed (s : String) : ReachableStatus s → ReachableStatus "completed"
  | failed (s : String) : ReachableStatus s → ReachableStatus "failed"
  | cancelled (s : String) : ReachableStatus s → s ≠ "completed" →
      s ≠ "failed" → ReachableStatus "cancelled"

/-- C8, counterexample: a task enters the registry with status `'pending'`,
which is not `'queued'` and lies outside the claimed status enum. -/
theorem initialTaskStatus_not_queued :
    ReachableStatus initialTaskStatus ∧
    initialTaskStatus ≠ "queued" ∧
    initialTaskStatus ∉
      ["queued", "processing", "completed", "failed", "cancelled"] :=
  ⟨ReachableStatus.init, by decide, by decide⟩

/-- C8, amended: every task enters the registry with initial status
`'pending'`, and every status it can ever carry lies in the enum
{pending, processing, completed, failed, cancelled}; `'cancelled'` is only
written while the status is neither `'completed'` nor `'failed'`. -/
theorem reachableStatus_in_enum (s : String) (h : ReachableStatus s) :
    s ∈ ["pending", "processing", "completed", "failed", "cancelled"] := by
  cases h with
  | init => simp [initialTaskStatus]
  | processing _ _ => simp
  | completed _ _ => simp
  | failed _ _ => simp
  | cancelled _ _ _ _ => simp

/-- Closed witness for `reachableStatus_in_enum` along the run
pending → processing → cancelled. -/
theorem reachableStatus_in_enum_witness :
    ReachableStatus "cancelled" ∧
    "cancelled" ∈ ["pending", "processing", "completed", "failed", "cancelled"] := by
  have hr : ReachableStatus "cancelled" :=
    ReachableStatus.cancelled "processing"
      (ReachableStatus.processing initialTaskStatus ReachableStatus.init)
      (by decide) (by decide)
  exact ⟨hr, reachableStatus_in_enum "cancelled" hr⟩

/-! ## ArtifactCache tiers in `process_task`
(`Euclid_flash_app.py`: directory constants lines 92-103, fingerprint-cache
check lines 814-846, persistence of new results lines 1019-1047, persistence
of cached results lines 1157-1276) -/

/-- `os.path.dirname(__file__)` of the legacy Flask app module. -/
def legacyDir : String := "euclid_service/legacy"

/-- `CACHE_DIR = os.path.join(os.path.dirname(__file__), 'cache')`: the
ephemeral fingerprint-keyed tier. -/
def cacheDir : String := legacyDir ++ "/cache"

/-- `TMP_DIR = os.path.join(os.path.dirname(__file__), 'tmp')`. -/
def tmpDir : String := legacyDir ++ "/tmp"

/-- `PERMANENT_DOWNLOAD_DIR = '/home/aaron/tmp/Euclid_download/'`: the
permanent tier (band-keyed backup plus per-task result directories). -/
def permanentDownloadDir : String := "/home/aaron/tmp/Euclid_download/"

/-- The fingerprint-cache file probed at line 822:
`os.path.join(CACHE_DIR, instrument, file_type, f"{cache_key}.fits")`. -/
def cacheFilePath (instrument fileType cacheKey : String) : String :=
  cacheDir ++ ("/" ++ instrument ++ "/" ++ fileType ++ "/" ++ cacheKey
    ++ ".fits")

/-- `build_unified_filename` (lines 136-174):
`{target_id}_{instrument}_{file_type}_{band}.fits`, with `-` in the file
type replaced by `_`, upper-cased instrument and band, the `band` part
omitted for `VIS`, and — when the target id is missing — the RA/Dec-derived
fallback name (the float formatting of that fallback enters as the
pre-rendered `raDecName`). -/
def buildUnifiedFilename (targetId fileType instrument band raDecName :
    String) : String :=
  let ftClean := String.map (fun c => if c = '-' then '_' else c) fileType
  let instClean := instrument.toUpper
  let bandClean := if band = "" then "VIS" else band.toUpper
  let tid := if targetId = "" then raDecName else targetId
  if bandClean = "VIS" then
    tid ++ "_" ++ instClean ++ "_" ++ ftClean ++ ".fits"
  else
    tid ++ "_" ++ instClean ++ "_" ++ ftClean ++ "_" ++ bandClean ++ ".fits"

/-- One (source, instrument, file type, band) fingerprint of a task. -/
structure FingerprintReq where
  ra : ℚ
  dec : ℚ
  size : Nat
  instrument : String
  fileType : String
  band : String
deriving DecidableEq

/-- Outcome of running the per-fingerprint portion of `process_task`:
whether the fingerprint was added to `sources_to_process` (and hence
`process_catalog` — the extraction — invoked for it), and the disk state
afterwards. -/
structure RunOutcome where
  extractionInvoked : Bool
  store : List String
deriving DecidableEq

/-- The per-fingerprint cache logic of `process_task` for one task: probe
the fingerprint-keyed file under `CACHE_DIR` (line 825); on a hit, copy the
cached artifact to the per-task permanent directory, the task output
directory, and (if absent) the band cache directory (lines 1247-1270); on a
miss, add the fingerprint to `sources_to_process`, run the extraction, and
copy the produced file to the same three destinations (lines 1024-1047).
No branch ever writes the probed `CACHE_DIR` path.  (The whole-zip shortcut
at lines 575-592 is keyed by task id and cannot fire for a fresh task.) -/
def processFingerprint (store : List String)
    (taskId targetId raDecName : String) (r : FingerprintReq) : RunOutcome :=
  let ck := generateSourceCacheKey r.ra r.dec r.size r.instrument r.fileType
    (some r.band)
  let cf := cacheFilePath r.instrument r.fileType ck
  let fn := buildUnifiedFilename targetId r.fileType r.instrument r.band
    raDecName
  let bandCacheFile := permanentDownloadDir ++ (r.band ++ "/" ++ fn)
  let dests :=
    [permanentDownloadDir ++ (taskId ++ "/" ++ r.band ++ "/" ++ fn),
     tmpDir ++ ("/" ++ taskId ++ "/" ++ r.band ++ "/" ++ fn)] ++
    (if bandCacheFile ∈ store then [] else [bandCacheFile])
  if cf ∈ store then ⟨false, store ++ dests⟩
  else ⟨true, store ++ dests⟩

theorem cacheDir_ne_tmp (s t : String) : cacheDir ++ s ≠ tmpDir ++ t := by
  intro h
  have h2 := congrArg String.data h
  simp only [String.data_append] at h2
  have h3 := congrArg (List.take 23) h2
  rw [List.take_append_of_le_length (by decide),
    List.take_append_of_le_length (by decide)] at h3
  exact absurd h3 (by decide)

theorem cacheDir_ne_permanent (s t : String) :
    cacheDir ++ s ≠ permanentDownloadDir ++ t := by
  intro h
  have h2 := congrArg String.data h
  simp only [String.data_append] at h2
  have h3 := congrArg (List.take 1) h2
  rw [List.take_append_of_le_length (by decide),
    List.take_append_of_le_length (by decide)] at h3
  exact absurd h3 (by decide)

/-- On a fingerprint-cache miss the extraction is invoked, and the
fingerprint-cache path is still absent afterwards: none of the persisted
destinations lives under `CACHE_DIR`. -/
theorem processFingerprint_miss (store : List String)
    (taskId targetId raDecName : String) (r : FingerprintReq)
    (h : cacheFilePath r.instrument r.fileType
      (generateSourceCacheKey r.ra r.dec r.size r.instrument r.fileType
        (some r.band)) ∉ store) :
    (processFingerprint store taskId targetId raDecName r).extractionInvoked
      = true ∧
    cacheFilePath r.instrument r.fileType
      (generateSourceCacheKey r.ra r.dec r.size r.instrument r.fileType
        (some r.band))
      ∉ (processFingerprint store taskId targetId raDecName r).store := by
  simp only [processFingerprint]
  rw [if_neg h]
  refine ⟨rfl, ?_⟩
  intro hmem
  rw [List.mem_append] at hmem
  rcases hmem with hs | hd
  · exact h hs
  · rw [List.mem_append] at hd
    rcases hd with hd | hb
    · rcases List.mem_cons.mp hd with h1 | h1
      · exact cacheDir_ne_permanent _ _ h1
      · rcases List.mem_cons.mp h1 with h2 | h2
        · exact cacheDir_ne_tmp _ _ h2
        · simp at h2
    · split_ifs at hb
      · simp at hb
      · rcases List.mem_cons.mp hb with h1 | h1
        · exact cacheDir_ne_permanent _ _ h1
        · simp at h1

/-- The concrete fingerprint of the failing input: RA 150, Dec 2, size 128,
instrument VIS, product type BGSUB, band VIS. -/
def reqC1 : FingerprintReq := ⟨150, 2, 128, "VIS", "BGSUB", "VIS"⟩

/-- C1 (code evaluated at the failing input): the artifact of a cache miss
is never persisted to the fingerprint-keyed ephemeral tier, so a second
sequential task requesting the same fingerprint misses again and re-invokes
the extraction — both runs invoke it. -/
theorem processFingerprint_recomputes :
    (processFingerprint [] "task1" "obj1" "ra_150_dec_2"
      reqC1).extractionInvoked = true ∧
    (processFingerprint
      (processFingerprint [] "task1" "obj1" "ra_150_dec_2" reqC1).store
      "task2" "obj1" "ra_150_dec_2" reqC1).extractionInvoked = true := by
  have h1 := processFingerprint_miss [] "task1" "obj1" "ra_150_dec_2" reqC1
    (by simp)
  have h2 := processFingerprint_miss
    (processFingerprint [] "task1" "obj1" "ra_150_dec_2" reqC1).store
    "task2" "obj1" "ra_150_dec_2" reqC1 h1.2
  exact ⟨h1.1, h2.1⟩

end EuclidCutout
